import Mathlib

/-!
Shallow embedding of the FYF browser client (static/js/app.js).

The client keeps an in-memory cache of tasks fetched from a REST backend,
renders role-filtered views, and issues CRUD requests.  DOM rendering is
modelled by the data that reaches each view (lists of tasks, lists of
action buttons, booleans for visibility); backend interaction is modelled
by explicit request values and an explicit success flag; the mutable
globals (`tasks`, `currentFilters`) are threaded as explicit state.
Timestamps are integers (milliseconds since the epoch, as produced by
JavaScript `Date.getTime`).
-/

namespace FYF

/-- A task as held in the client cache (the shape produced by
`mapBackendTaskToUI` in app.js). -/
structure Task where
  id : Nat
  orderNo : String
  customerName : String
  contactNumber : String
  serviceType : String
  status : String
  assignedTo : String
  branch : String
  paymode : String
  servicePrice : Int
  paidAmount : Int
  serviceCharge : Int
  description : String
  edited : Bool
  editReason : Option String
  sharedWith : List String
  taskDate : String
  timestamp : Int
  takenOverBy : Option String
deriving Repr, DecidableEq, Inhabited

/-- A task as delivered by the backend (snake_case JSON of GET /api/tasks).
`shared_with` is `none` when the JSON field is absent or not an array
(the code checks `Array.isArray`). -/
structure BackendTask where
  id : Nat
  order_no : String
  customer_name : String
  contact_number : String
  service_type : String
  status : String
  assigned_to : String
  branch_code : String
  paymode : String
  service_price : Int
  paid_amount : Int
  service_charge : Int
  description : String
  edited : Bool
  edit_reason : Option String
  shared_with : Option (List String)
  task_date : String
  created_at : Int
deriving Repr, DecidableEq, Inhabited

/-- Embedding of `mapBackendTaskToUI` (app.js lines 292-314): field-by-field renaming;
`sharedWith` falls back to `[]` when `shared_with` is not an array, and
`takenOverBy` is always initialised to `null`. -/
def mapBackendTaskToUI (t : BackendTask) : Task :=
  { id := t.id
    orderNo := t.order_no
    customerName := t.customer_name
    contactNumber := t.contact_number
    serviceType := t.service_type
    status := t.status
    assignedTo := t.assigned_to
    branch := t.branch_code
    paymode := t.paymode
    servicePrice := t.service_price
    paidAmount := t.paid_amount
    serviceCharge := t.service_charge
    description := t.description
    edited := t.edited
    editReason := t.edit_reason
    sharedWith := t.shared_with.getD []
    taskDate := t.task_date
    timestamp := t.created_at
    takenOverBy := none }

/-- The global `currentFilters` object: each field is either "all" or a
concrete value. -/
structure Filters where
  date : String
  branch : String
  staff : String
  status : String
  service : String
deriving Repr, DecidableEq, Inhabited

/-- The day boundaries `filterTasksByDate` computes from the current clock
(`today`, `yesterday`, `tomorrow` are the midnight instants produced by the
Date arithmetic in app.js lines 1008-1013; `custom` holds the pair of the
custom day start and the following day start when the custom date input is
non-empty). -/
structure DateCtx where
  today : Int
  yesterday : Int
  tomorrow : Int
  custom : Option (Int × Int)
deriving Repr, DecidableEq, Inhabited

/-- Embedding of `filterTasksByDate` (app.js lines 1007-1046): keep tasks whose timestamp
falls in the half-open day interval selected by the date filter; unknown
filter values and an empty custom date keep every task. -/
def filterTasksByDate (ctx : DateCtx) (dateFilter : String) (tasks : List Task) : List Task :=
  if dateFilter == "today" then
    tasks.filter (fun t => decide (ctx.today ≤ t.timestamp ∧ t.timestamp < ctx.tomorrow))
  else if dateFilter == "yesterday" then
    tasks.filter (fun t => decide (ctx.yesterday ≤ t.timestamp ∧ t.timestamp < ctx.today))
  else if dateFilter == "tomorrow" then
    tasks.filter (fun t =>
      decide (ctx.tomorrow ≤ t.timestamp ∧ t.timestamp < ctx.tomorrow + 24 * 60 * 60 * 1000))
  else if dateFilter == "custom" then
    match ctx.custom with
    | some (c, nextDay) =>
        tasks.filter (fun t => decide (c ≤ t.timestamp ∧ t.timestamp < nextDay))
    | none => tasks
  else tasks

/-- Per-task form of the date filter: the predicate each branch of
`filterTasksByDate` filters with (true in the branches that keep all
tasks). -/
def matchesDateFilter (ctx : DateCtx) (dateFilter : String) (t : Task) : Bool :=
  if dateFilter == "today" then
    decide (ctx.today ≤ t.timestamp ∧ t.timestamp < ctx.tomorrow)
  else if dateFilter == "yesterday" then
    decide (ctx.yesterday ≤ t.timestamp ∧ t.timestamp < ctx.today)
  else if dateFilter == "tomorrow" then
    decide (ctx.tomorrow ≤ t.timestamp ∧ t.timestamp < ctx.tomorrow + 24 * 60 * 60 * 1000)
  else if dateFilter == "custom" then
    match ctx.custom with
    | some (c, nextDay) => decide (c ≤ t.timestamp ∧ t.timestamp < nextDay)
    | none => true
  else true

/-- The overdue predicate computed inside `renderTasks` (app.js lines
967-974) and `updateStaffAlerts` (lines 1441-1448): non-terminal status and
strictly more than 24 hours since the task's timestamp, with the hour
difference computed by real division as in JavaScript. -/
def isOverdue (now : Int) (t : Task) : Bool :=
  let hoursDiff : ℚ := ((now : ℚ) - (t.timestamp : ℚ)) / (1000 * 60 * 60)
  (t.status == "Pending" || t.status == "In Progress" || t.status == "Hold")
    && decide ((24 : ℚ) < hoursDiff)

/-- The comparator `(a, b) => new Date(b.timestamp) - new Date(a.timestamp)`
orders tasks by timestamp, newest first. -/
def sortByTimestampDesc (l : List Task) : List Task :=
  l.mergeSort (fun a b => decide (b.timestamp ≤ a.timestamp))

/-- What one call to `renderTasks` (app.js lines 928-1004) puts into the
three task views. -/
structure RenderOutput where
  recentTasks : List Task
  overdueTasks : List Task
  tableTasks : List Task
deriving Repr, DecidableEq, Inhabited

/-- Embedding of `renderTasks` (app.js lines 928-1004): copy the cache, apply each
non-"all" filter in turn, sort by timestamp descending, then fill the
dashboard recent-tasks table (first 10), the overdue table and the main
tasks table. -/
def renderTasks (filters : Filters) (ctx : DateCtx) (now : Int) (tasks : List Task) :
    RenderOutput :=
  let f1 := if filters.date != "all" then filterTasksByDate ctx filters.date tasks else tasks
  let f2 := if filters.branch != "all" then f1.filter (fun t => t.branch == filters.branch) else f1
  let f3 := if filters.staff != "all" then f2.filter (fun t => t.assignedTo == filters.staff) else f2
  let f4 := if filters.status != "all" then f3.filter (fun t => t.status == filters.status) else f3
  let f5 :=
    if filters.service != "all" then f4.filter (fun t => t.serviceType == filters.service) else f4
  let sortedTasks := sortByTimestampDesc f5
  { recentTasks := sortedTasks.take 10
    overdueTasks := sortedTasks.filter (isOverdue now)
    tableTasks := sortedTasks }

/-- The client's mutable globals touched by filtering: the task cache and
the active filter set. -/
structure AppState where
  tasks : List Task
  currentFilters : Filters
deriving Repr, DecidableEq, Inhabited

/-- Embedding of `renderTasks` as a state transformer: it only reads the globals
(the JavaScript body works on the spread copy `[...tasks]` and never
assigns to `tasks` or `currentFilters`). -/
def renderTasksState (ctx : DateCtx) (now : Int) (st : AppState) : AppState × RenderOutput :=
  (st, renderTasks st.currentFilters ctx now st.tasks)

/-- Embedding of `applyTaskFilters` (app.js lines 1284-1295): replace `currentFilters`
with the values read from the filter controls, then re-render. -/
def applyTaskFilters (newFilters : Filters) (ctx : DateCtx) (now : Int) (st : AppState) :
    AppState × RenderOutput :=
  renderTasksState ctx now { st with currentFilters := newFilters }

/-- The conjunctive filter predicate of the specification: a task passes
when every active (non-"all") filter accepts it. -/
def matchesFilters (f : Filters) (ctx : DateCtx) (t : Task) : Bool :=
  (f.date == "all" || matchesDateFilter ctx f.date t)
    && (f.branch == "all" || t.branch == f.branch)
    && (f.staff == "all" || t.assignedTo == f.staff)
    && (f.status == "all" || t.status == f.status)
    && (f.service == "all" || t.serviceType == f.service)

/-- The task fields the forms submit (`mapUIToBackendTask`, app.js lines
316-329). -/
structure TaskPayload where
  customer_name : String
  contact_number : String
  service_type : String
  assigned_to : String
  branch_code : String
  paymode : String
  service_price : Int
  paid_amount : Int
  service_charge : Int
  description : String
deriving Repr, DecidableEq, Inhabited

/-- A service record of the catalog (GET /api/services). -/
structure Service where
  id : Nat
  name : String
  price : Int
  fee : Int
  charge : Int
  link : String
  note : String
deriving Repr, DecidableEq, Inhabited

/-- The fields of the service form (`saveService`, app.js lines 871-895). -/
structure ServiceData where
  name : String
  price : Int
  fee : Int
  charge : Int
  link : String
  note : String
deriving Repr, DecidableEq, Inhabited

/-- The REST requests the client can issue. -/
inductive ApiRequest where
  | getTasks
  | postTask (payload : TaskPayload)
  | putTask (id : Nat) (payload : TaskPayload) (edit_reason : String)
  | putTaskStatus (id : Nat) (status : String)
  | removeTask (id : Nat)
  | postShare (id : Nat) (staff_name : String)
  | postService (data : ServiceData)
  | putService (id : Nat) (data : ServiceData)
deriving Repr, DecidableEq

/-- Embedding of `fetchTasksAndRender` (app.js lines 331-341): the cache is replaced
wholesale by the mapped backend list; the previous cache does not enter the
computation. -/
def fetchTasksAndRender (backendData : List BackendTask) (_oldTasks : List Task) : List Task :=
  backendData.map mapBackendTaskToUI

/-- How a mutation's success handler updates the task cache: either by
refetching the whole list from the backend (`fetchTasksAndRender`) or by a
local patch computed from the old cache. -/
inductive CacheUpdate where
  | refetch
  | localPatch (patch : List Task → List Task)

/-- Apply a `CacheUpdate` given the backend's current list and the old
cache. -/
def applyCacheUpdate : CacheUpdate → List BackendTask → List Task → List Task
  | CacheUpdate.refetch, backend, old => fetchTasksAndRender backend old
  | CacheUpdate.localPatch patch, _, old => patch old

/-- Embedding of `saveTask` (app.js lines 836-868): create posts the payload; edit puts
the payload together with `edit_reason` taken from `currentEditReason`. -/
def saveTaskRequest (editingTaskId : Option Nat) (payload : TaskPayload)
    (currentEditReason : String) : ApiRequest :=
  match editingTaskId with
  | none => ApiRequest.postTask payload
  | some id => ApiRequest.putTask id payload currentEditReason

/-- The success handler of `saveTask` calls `fetchTasksAndRender` (app.js
line 863): the cache is refetched. -/
def saveTaskSuccessUpdate : CacheUpdate := CacheUpdate.refetch

/-- Embedding of `deleteTask` (app.js lines 1188-1201) issues the DELETE request. -/
def deleteTaskRequest (id : Nat) : ApiRequest := ApiRequest.removeTask id

/-- The success handler of `deleteTask` (app.js line 1193) runs
`tasks = tasks.filter(t => t.id !== id)`: a local patch of the cache, with
no refetch. -/
def deleteTaskSuccessUpdate (id : Nat) : CacheUpdate :=
  CacheUpdate.localPatch (fun ts => ts.filter (fun t => t.id != id))

/-- The choice `handleTaskSubmit` (app.js lines 804-815) makes on form
submission. -/
inductive SubmitAction where
  | showReasonModal
  | saveDirect
deriving Repr, DecidableEq

/-- Embedding of `handleTaskSubmit`: when an existing task is being edited and the
current user is staff, open the edit-reason modal and return; otherwise
save directly. -/
def handleTaskSubmit (editingTaskId : Option Nat) (role : String) : SubmitAction :=
  if editingTaskId != none && role == "staff" then SubmitAction.showReasonModal
  else SubmitAction.saveDirect

/-- Outcome of `saveTaskWithReason`: whether the save was blocked, whether
an error toast was shown, and the request sent (if any). -/
structure ReasonSubmitResult where
  blocked : Bool
  errorToast : Bool
  request : Option ApiRequest
deriving Repr, DecidableEq

/-- Embedding of `saveTaskWithReason` (app.js lines 824-833): trim the reason input; an
empty trimmed reason shows an error toast and returns without saving; a
non-empty one closes the modal and calls `saveTask`, which sends the PUT
with `edit_reason` set to the trimmed reason. -/
def saveTaskWithReason (reasonInput : String) (editingTaskId : Option Nat)
    (payload : TaskPayload) : ReasonSubmitResult :=
  let currentEditReason := reasonInput.trim
  if currentEditReason == "" then
    { blocked := true, errorToast := true, request := none }
  else
    { blocked := false, errorToast := false
      request := some (saveTaskRequest editingTaskId payload currentEditReason) }

/-- Outcome of `updateTaskStatus`: the request issued (none when the task id
is not in the cache), the cache afterwards, and the value the triggering
select control is reverted to on failure (none when no revert happens). -/
structure StatusUpdateResult where
  request : Option ApiRequest
  tasks : List Task
  revertedSelectValue : Option String
deriving Repr, DecidableEq

/-- Embedding of `updateTaskStatus` (app.js lines 604-642): look the task up by id; if
absent, toast an error and stop.  Otherwise issue the PUT; only in the
success callback mutate the cached task (status, edited, editReason) — on
failure the cache is untouched and the select control is set back to the
old status.  `backendOk` is the outcome of the PUT. -/
def updateTaskStatus (id : Nat) (newStatus : String) (tasks : List Task)
    (backendOk : Bool) : StatusUpdateResult :=
  match List.findIdx? (fun t => t.id == id) tasks with
  | none => { request := none, tasks := tasks, revertedSelectValue := none }
  | some i =>
    let t := (tasks.get? i).getD default
    let oldStatus := t.status
    if backendOk then
      { request := some (ApiRequest.putTaskStatus id newStatus)
        tasks := tasks.set i
          { t with status := newStatus, edited := true
                   editReason :=
                     some ("Status changed from " ++ oldStatus ++ " to " ++ newStatus) }
        revertedSelectValue := none }
    else
      { request := some (ApiRequest.putTaskStatus id newStatus)
        tasks := tasks
        revertedSelectValue := some oldStatus }

/-- Outcome of `takeOverTask`: the backend requests issued (always none in
the code) and the cache afterwards. -/
structure TakeOverResult where
  requests : List ApiRequest
  tasks : List Task
deriving Repr

/-- Embedding of `takeOverTask` (app.js lines 567-577): find the task in the cache; when
present, set `takenOverBy` to the current user, mark it edited with a
generated reason, and re-render the staff panel.  No fetch call appears in
the function: the requests list is empty in both branches. -/
def takeOverTask (taskId : Nat) (username : String) (tasks : List Task) : TakeOverResult :=
  match List.findIdx? (fun t => t.id == taskId) tasks with
  | none => { requests := [], tasks := tasks }
  | some i =>
    let t := (tasks.get? i).getD default
    { requests := []
      tasks := tasks.set i
        { t with takenOverBy := some username, edited := true
                 editReason := some ("Task taken over by " ++ username) } }

/-- An entry of `STAFF_LIST` (derived from GET /api/users). -/
structure Staff where
  name : String
  role : String
  email : String
deriving Repr, DecidableEq, Inhabited

/-- The staff members `showShareModal` (app.js lines 1204-1228) lists as
share targets: staff-role users other than the task's assignee. -/
def showShareModalList (staffList : List Staff) (task : Task) : List Staff :=
  staffList.filter (fun staff => staff.name != task.assignedTo && staff.role == "staff")

/-- Embedding of `shareTask` (app.js lines 1231-1259): without a selection, toast an
error and send nothing; otherwise POST the selected staff member's name as
`staff_name`. -/
def shareTaskRequest (sharingTaskId : Nat) (selected : Option Staff) : Option ApiRequest :=
  match selected with
  | none => none
  | some s => some (ApiRequest.postShare sharingTaskId s.name)

/-- Model of JavaScript `String.prototype.toLowerCase`: lower-case every
character. -/
def toLowerCase (s : String) : String := String.mk (s.data.map Char.toLower)

/-- The duplicate check of `populateServiceDatabase` (app.js lines 754-765):
other catalog entries with the same name, case-insensitively, and a
different id. -/
def serviceDuplicates (db : List Service) (service : Service) : List Service :=
  db.filter (fun s => toLowerCase s.name == toLowerCase service.name && s.id != service.id)

/-- A service item carries the duplicate warning when its duplicate list is
non-empty. -/
def hasDuplicateWarning (db : List Service) (service : Service) : Bool :=
  (serviceDuplicates db service).length > 0

/-- Embedding of `saveService` (app.js lines 871-895): the request is built from the form
data and the editing id alone — no duplicate check guards it. -/
def saveServiceRequest (editingServiceId : Option Nat) (data : ServiceData) : ApiRequest :=
  match editingServiceId with
  | none => ApiRequest.postService data
  | some id => ApiRequest.putService id data

/-- The interactive controls a rendered task row or task card can carry. -/
inductive UIAction where
  | editBtn
  | deleteBtn
  | shareBtn
  | statusSelect
  | takeoverBtn
deriving Repr, DecidableEq

/-- The action buttons `createTaskRow` (app.js lines 1050-1153) renders into
the actions cell, by role: admin gets edit/delete/share; manager gets
edit/share; staff gets edit/share/status when the task is assigned to or
shared with them, otherwise status/share. -/
def createTaskRowActions (role username : String) (task : Task)
    (includeActions : Bool) : List UIAction :=
  if !includeActions then []
  else if role == "admin" then
    [UIAction.editBtn, UIAction.deleteBtn, UIAction.shareBtn]
  else if role == "manager" then [UIAction.editBtn, UIAction.shareBtn]
  else
    let canEdit := task.assignedTo == username || task.sharedWith.contains username
    if canEdit then [UIAction.editBtn, UIAction.shareBtn, UIAction.statusSelect]
    else [UIAction.statusSelect, UIAction.shareBtn]

/-- The action buttons `createTaskCard` (app.js lines 501-565) renders on a
staff-panel task card: a take-over button when the task is neither the
user's nor taken over, and edit plus a status select when it is the
user's. -/
def createTaskCardActions (username : String) (task : Task) : List UIAction :=
  let isMyTask := task.assignedTo == username || task.takenOverBy == some username
  let canTakeOver := !isMyTask && task.takenOverBy == none
  (if canTakeOver then [UIAction.takeoverBtn] else [])
    ++ (if isMyTask then [UIAction.editBtn, UIAction.statusSelect] else [])

/-- Embedding of `showApp` (app.js lines 219-245) unhides the dashboard revenue card only
for the admin role. -/
def revenueCardVisible (role : String) : Bool := role == "admin"

/-- Embedding of `updateDashboard` (app.js line 1368) writes the total-revenue figure
only for the admin role. -/
def dashboardRendersRevenue (role : String) : Bool := role == "admin"

/-- Embedding of `updateWinners` (app.js line 1391) includes the revenue line on a
top-performer card only for the admin role. -/
def winnerCardRendersRevenue (role : String) : Bool := role == "admin"

/-- Embedding of `updateReports` (app.js line 1504) includes the revenue line on a staff
report card only for the admin role. -/
def reportCardRendersRevenue (role : String) : Bool := role == "admin"

/-- A concrete task for witness statements: identifier, timestamp, status
and assignee as given, everything else neutral. -/
def mkTask (id : Nat) (ts : Int) (status assignedTo : String) : Task :=
  { id := id
    orderNo := "ORD-" ++ toString id
    customerName := "customer"
    contactNumber := "0"
    serviceType := "Visa"
    status := status
    assignedTo := assignedTo
    branch := "BR1"
    paymode := "Cash"
    servicePrice := 100
    paidAmount := 50
    serviceCharge := 10
    description := ""
    edited := false
    editReason := none
    sharedWith := []
    taskDate := "2024-01-01"
    timestamp := ts
    takenOverBy := none }

/-- A concrete service record for witness statements. -/
def mkService (id : Nat) (name : String) : Service :=
  { id := id, name := name, price := 100, fee := 10, charge := 5
    link := "http://example.com", note := "" }

/-- A concrete form payload for witness statements. -/
def samplePayload : TaskPayload :=
  { customer_name := "customer"
    contact_number := "0"
    service_type := "Visa"
    assigned_to := "alice"
    branch_code := "BR1"
    paymode := "Cash"
    service_price := 100
    paid_amount := 50
    service_charge := 10
    description := "" }

/-- Sample task catalog entries for concrete statements. -/
def sampleDb : List Service :=
  [mkService 1 "Passport", mkService 2 "passport", mkService 3 "Visa"]

/-- A task that has already been edited once, for concrete statements. -/
def sampleEditedTask : Task :=
  { mkTask 1 0 "Pending" "alice" with edited := true }

/-- A sample staff list, for concrete statements. -/
def sampleStaffList : List Staff :=
  [{ name := "alice", role := "staff", email := "a@x" },
   { name := "bob", role := "staff", email := "b@x" },
   { name := "mary", role := "manager", email := "m@x" }]

/- ------------------------------------------------------------------ -/
/- Helper lemmas                                                      -/
/- ------------------------------------------------------------------ -/

theorem filterTasksByDate_eq_filter (ctx : DateCtx) (d : String) (ts : List Task) :
    filterTasksByDate ctx d ts = ts.filter (fun t => matchesDateFilter ctx d t) := by
  by_cases h1 : (d == "today") = true
  · simp [filterTasksByDate, matchesDateFilter, h1]
  · by_cases h2 : (d == "yesterday") = true
    · simp [filterTasksByDate, matchesDateFilter, h1, h2]
    · by_cases h3 : (d == "tomorrow") = true
      · simp [filterTasksByDate, matchesDateFilter, h1, h2, h3]
      · by_cases h4 : (d == "custom") = true
        · cases hc : ctx.custom with
          | none => simp [filterTasksByDate, matchesDateFilter, h1, h2, h3, h4, hc]
          | some p =>
            cases p with
            | mk c nxt => simp [filterTasksByDate, matchesDateFilter, h1, h2, h3, h4, hc]
        · simp [filterTasksByDate, matchesDateFilter, h1, h2, h3, h4]

theorem mem_guard_filter (b : Bool) (p : Task → Bool) (l : List Task) (t : Task) :
    (t ∈ if b = true then l.filter p else l) ↔ t ∈ l ∧ (!b || p t) = true := by
  cases b <;> simp [List.mem_filter]

theorem mem_renderTasks_tableTasks (f : Filters) (ctx : DateCtx) (now : Int)
    (tasks : List Task) (t : Task) :
    t ∈ (renderTasks f ctx now tasks).tableTasks ↔
      t ∈ tasks ∧ matchesFilters f ctx t = true := by
  simp only [renderTasks, sortByTimestampDesc, filterTasksByDate_eq_filter]
  rw [List.mem_mergeSort, mem_guard_filter, mem_guard_filter, mem_guard_filter,
    mem_guard_filter, mem_guard_filter]
  simp only [matchesFilters, bne, Bool.not_not, Bool.and_eq_true, and_assoc]

/- ------------------------------------------------------------------ -/
/- Claim theorems                                                     -/
/- ------------------------------------------------------------------ -/

/-- C1: for every cached task list and filter state, the task list rendered
by `renderTasks` contains exactly the cached tasks that satisfy every
active (non-"all") filter predicate — date, branch, staff, status,
service — conjunctively; and applying filters via
`applyTaskFilters`/`renderTasks` leaves the cached task list (and the whole
client state) unchanged. -/
theorem rendered_list_is_filtered_cache (f : Filters) (ctx : DateCtx) (now : Int)
    (st : AppState) (t : Task) :
    (t ∈ (applyTaskFilters f ctx now st).2.tableTasks ↔
      t ∈ st.tasks ∧ matchesFilters f ctx t = true) ∧
    (applyTaskFilters f ctx now st).1.tasks = st.tasks ∧
    (renderTasksState ctx now st).1 = st :=
  ⟨mem_renderTasks_tableTasks f ctx now st.tasks t, rfl, rfl⟩

/-- C2: a task is flagged overdue by the render exactly when its status is
Pending, In Progress or Hold and more than 24 hours (in milliseconds, via
the real-valued hour difference) have passed since its timestamp; a Pending
task 25 hours old is flagged and one 23 hours old is not; the render
recomputes the flag from the clock and never writes it back into the
cached tasks. -/
theorem overdue_flag_correct :
    (∀ (f : Filters) (ctx : DateCtx) (now : Int) (tasks : List Task) (t : Task),
        t ∈ (renderTasks f ctx now tasks).overdueTasks ↔
          t ∈ (renderTasks f ctx now tasks).tableTasks ∧ isOverdue now t = true) ∧
    (∀ (now : Int) (t : Task),
        isOverdue now t = true ↔
          ((t.status = "Pending" ∨ t.status = "In Progress" ∨ t.status = "Hold") ∧
            (24 * (60 * 60 * 1000) : ℚ) < (now : ℚ) - (t.timestamp : ℚ))) ∧
    isOverdue (25 * 60 * 60 * 1000) (mkTask 1 0 "Pending" "alice") = true ∧
    isOverdue (23 * 60 * 60 * 1000) (mkTask 1 0 "Pending" "alice") = false ∧
    (∀ (ctx : DateCtx) (now : Int) (st : AppState), (renderTasksState ctx now st).1 = st) := by
  refine ⟨?_, ?_, ?_, ?_, fun _ _ _ => rfl⟩
  · intro f ctx now tasks t
    simp only [renderTasks, List.mem_filter]
  · intro now t
    have h3600000 : (0 : ℚ) < 1000 * 60 * 60 := by norm_num
    simp only [isOverdue, Bool.and_eq_true, Bool.or_eq_true, beq_iff_eq,
      decide_eq_true_eq, lt_div_iff₀ h3600000]
    constructor
    · rintro ⟨hs, hd⟩
      exact ⟨by tauto, by linarith⟩
    · rintro ⟨hs, hd⟩
      exact ⟨by tauto, by linarith⟩
  · simp only [isOverdue, mkTask]
    norm_num
  · simp only [isOverdue, mkTask]
    norm_num

/-- C3 counterexample: the success handler of `deleteTask` is not a
refetch; at a concrete input (cache holding task 2, backend already empty,
deleting task 1) it keeps the locally filtered cache, while a wholesale
refetch would have produced the empty list. -/
theorem delete_refetch_counterexample :
    deleteTaskSuccessUpdate 1 ≠ CacheUpdate.refetch ∧
    applyCacheUpdate (deleteTaskSuccessUpdate 1) [] [mkTask 2 0 "Pending" "alice"] =
      [mkTask 2 0 "Pending" "alice"] ∧
    applyCacheUpdate CacheUpdate.refetch [] [mkTask 2 0 "Pending" "alice"] = [] := by
  refine ⟨?_, ?_, rfl⟩
  · intro h
    simp [deleteTaskSuccessUpdate] at h
  · decide

/-- C3 amended: edit, create and delete each issue the corresponding REST
call; on success, edit and create refetch the entire task list and replace
the cache wholesale, while delete patches the cache locally by removing the
deleted task's id (no refetch). -/
theorem mutation_refetch_policy (payload : TaskPayload) (reason : String) (id : Nat)
    (backend : List BackendTask) (old : List Task) :
    saveTaskRequest none payload reason = ApiRequest.postTask payload ∧
    saveTaskRequest (some id) payload reason = ApiRequest.putTask id payload reason ∧
    deleteTaskRequest id = ApiRequest.removeTask id ∧
    applyCacheUpdate saveTaskSuccessUpdate backend old = backend.map mapBackendTaskToUI ∧
    applyCacheUpdate (deleteTaskSuccessUpdate id) backend old =
      old.filter (fun t => t.id != id) :=
  ⟨rfl, rfl, rfl, rfl, rfl⟩

/-- C4: with the staff role, no rendered task row and no staff-panel task
card carries a delete button, and none of the revenue render sites (the
dashboard revenue card, the dashboard total, the top-performer cards, the
report cards) shows a revenue figure. -/
theorem staff_sees_no_delete_no_revenue (username : String) (t : Task) (b : Bool) :
    UIAction.deleteBtn ∉ createTaskRowActions "staff" username t b ∧
    UIAction.deleteBtn ∉ createTaskCardActions username t ∧
    revenueCardVisible "staff" = false ∧
    dashboardRendersRevenue "staff" = false ∧
    winnerCardRendersRevenue "staff" = false ∧
    reportCardRendersRevenue "staff" = false := by
  refine ⟨?_, ?_, rfl, rfl, rfl, rfl⟩
  · simp only [createTaskRowActions]
    split_ifs <;> simp_all
  · simp only [createTaskCardActions]
    split_ifs <;> simp_all

/-- C5: when a staff user submits an edit of an already-edited task, the
reason modal is opened before saving; submitting the modal with an empty or
whitespace-only reason blocks the save (no request, error toast), while a
non-empty reason proceeds to the PUT for the task id carrying `edit_reason`
(the trimmed reason). -/
theorem staff_edit_reason_required (id : Nat) (t : Task) (reason : String)
    (payload : TaskPayload) (_hEdited : t.edited = true) :
    handleTaskSubmit (some id) "staff" = SubmitAction.showReasonModal ∧
    (reason.trim = "" →
      (saveTaskWithReason reason (some id) payload).request = none ∧
      (saveTaskWithReason reason (some id) payload).blocked = true ∧
      (saveTaskWithReason reason (some id) payload).errorToast = true) ∧
    (reason.trim ≠ "" →
      (saveTaskWithReason reason (some id) payload).request =
        some (ApiRequest.putTask id payload reason.trim) ∧
      (saveTaskWithReason reason (some id) payload).blocked = false) := by
  refine ⟨rfl, ?_, ?_⟩
  · intro h
    simp [saveTaskWithReason, h]
  · intro h
    simp [saveTaskWithReason, h, saveTaskRequest]

/-- C5 witness: a staff edit of the already-edited sample task, with a
whitespace-only reason. -/
theorem staff_edit_reason_required_witness :
    sampleEditedTask.edited = true ∧
    (handleTaskSubmit (some 1) "staff" = SubmitAction.showReasonModal ∧
      (" ".trim = "" →
        (saveTaskWithReason " " (some 1) samplePayload).request = none ∧
        (saveTaskWithReason " " (some 1) samplePayload).blocked = true ∧
        (saveTaskWithReason " " (some 1) samplePayload).errorToast = true) ∧
      (" ".trim ≠ "" →
        (saveTaskWithReason " " (some 1) samplePayload).request =
          some (ApiRequest.putTask 1 samplePayload " ".trim) ∧
        (saveTaskWithReason " " (some 1) samplePayload).blocked = false)) :=
  ⟨rfl, staff_edit_reason_required 1 sampleEditedTask " " samplePayload rfl⟩

/-- C6: when the task id is in the cache, a failed status change leaves the
cache (hence the task's status, edited flag and editReason) unchanged and
reverts the triggering select to the task's prior status, while a
successful one sets the cached task's status to the new status. -/
theorem status_change_confirmed_only (id : Nat) (newStatus : String)
    (tasks : List Task) (i : Nat)
    (h : List.findIdx? (fun t => t.id == id) tasks = some i) :
    (updateTaskStatus id newStatus tasks false).tasks = tasks ∧
    (updateTaskStatus id newStatus tasks false).revertedSelectValue =
      some (((tasks.get? i).getD default).status) ∧
    ((updateTaskStatus id newStatus tasks true).tasks.get? i).map Task.status =
      some newStatus := by
  have hlen : i < tasks.length := (List.findIdx?_eq_some_iff_findIdx_eq.mp h).1
  refine ⟨?_, ?_, ?_⟩
  · simp [updateTaskStatus, h]
  · simp [updateTaskStatus, h]
  · simp only [updateTaskStatus, h, if_pos]
    rw [List.get?_eq_getElem?, List.getElem?_set_self hlen]
    rfl

/-- C6 witness: a one-task cache; the failed attempt reverts to "Pending",
the successful one stores "Completed". -/
theorem status_change_confirmed_only_witness :
    List.findIdx? (fun t => t.id == 1) [mkTask 1 0 "Pending" "alice"] = some 0 ∧
    ((updateTaskStatus 1 "Completed" [mkTask 1 0 "Pending" "alice"] false).tasks =
        [mkTask 1 0 "Pending" "alice"] ∧
      (updateTaskStatus 1 "Completed" [mkTask 1 0 "Pending" "alice"]
            false).revertedSelectValue =
        some ((([mkTask 1 0 "Pending" "alice"].get? 0).getD default).status) ∧
      ((updateTaskStatus 1 "Completed" [mkTask 1 0 "Pending" "alice"]
            true).tasks.get? 0).map Task.status = some "Completed") :=
  ⟨by decide,
   status_change_confirmed_only 1 "Completed" [mkTask 1 0 "Pending" "alice"] 0 (by decide)⟩

/-- C7: `takeOverTask` issues no backend request at all; when the task id
is in the cache it sets that task's takenOverBy to the current user's
username and leaves every other cache position unchanged. -/
theorem takeover_is_local_only (taskId : Nat) (username : String)
    (tasks : List Task) (i : Nat)
    (h : List.findIdx? (fun t => t.id == taskId) tasks = some i) :
    (∀ (tid : Nat) (u : String) (ts : List Task), (takeOverTask tid u ts).requests = []) ∧
    ((takeOverTask taskId username tasks).tasks.get? i).map Task.takenOverBy =
      some (some username) ∧
    ∀ j, j ≠ i → (takeOverTask taskId username tasks).tasks.get? j = tasks.get? j := by
  have hlen : i < tasks.length := (List.findIdx?_eq_some_iff_findIdx_eq.mp h).1
  refine ⟨?_, ?_, ?_⟩
  · intro tid u ts
    unfold takeOverTask
    cases List.findIdx? (fun t => t.id == tid) ts <;> rfl
  · simp only [takeOverTask, h]
    rw [List.get?_eq_getElem?, List.getElem?_set_self hlen]
    rfl
  · intro j hj
    simp only [takeOverTask, h]
    rw [List.get?_eq_getElem?, List.getElem?_set_ne (Ne.symm hj), List.get?_eq_getElem?]

/-- C7 witness: a two-task cache; taking over task 2 records carol on index
1 and leaves index 0 untouched. -/
theorem takeover_is_local_only_witness :
    List.findIdx? (fun t => t.id == 2)
        [mkTask 1 0 "Pending" "alice", mkTask 2 0 "Pending" "bob"] = some 1 ∧
    ((∀ (tid : Nat) (u : String) (ts : List Task),
        (takeOverTask tid u ts).requests = []) ∧
      ((takeOverTask 2 "carol"
            [mkTask 1 0 "Pending" "alice", mkTask 2 0 "Pending" "bob"]).tasks.get? 1).map
          Task.takenOverBy = some (some "carol") ∧
      ∀ j, j ≠ 1 →
        (takeOverTask 2 "carol"
            [mkTask 1 0 "Pending" "alice", mkTask 2 0 "Pending" "bob"]).tasks.get? j =
          [mkTask 1 0 "Pending" "alice", mkTask 2 0 "Pending" "bob"].get? j) :=
  ⟨by decide,
   takeover_is_local_only 2 "carol"
     [mkTask 1 0 "Pending" "alice", mkTask 2 0 "Pending" "bob"] 1 (by decide)⟩

/-- C8: the share modal lists only staff-role users other than the task's
assignee, so the share request built from any listed member never carries
the assignee's own name as staff_name. -/
theorem share_modal_excludes_assignee (staffList : List Staff) (task : Task)
    (s : Staff) (tid : Nat) (hmem : s ∈ showShareModalList staffList task) :
    s.name ≠ task.assignedTo ∧ s.role = "staff" ∧
    shareTaskRequest tid (some s) = some (ApiRequest.postShare tid s.name) := by
  have hp := (List.mem_filter.mp hmem).2
  simp only [Bool.and_eq_true, bne_iff_ne, beq_iff_eq] at hp
  exact ⟨hp.1, hp.2, rfl⟩

/-- C8 witness: with the sample staff list and a task assigned to alice,
bob is listed and the share request carries bob, not alice. -/
theorem share_modal_excludes_assignee_witness :
    ({ name := "bob", role := "staff", email := "b@x" } : Staff) ∈
        showShareModalList sampleStaffList (mkTask 1 0 "Pending" "alice") ∧
    (({ name := "bob", role := "staff", email := "b@x" } : Staff).name ≠
        (mkTask 1 0 "Pending" "alice").assignedTo ∧
      ({ name := "bob", role := "staff", email := "b@x" } : Staff).role = "staff" ∧
      shareTaskRequest 1 (some { name := "bob", role := "staff", email := "b@x" }) =
        some (ApiRequest.postShare 1
          ({ name := "bob", role := "staff", email := "b@x" } : Staff).name)) :=
  ⟨by decide,
   share_modal_excludes_assignee sampleStaffList (mkTask 1 0 "Pending" "alice")
     { name := "bob", role := "staff", email := "b@x" } 1 (by decide)⟩

/-- C9: a service item carries the duplicate warning exactly when some
other catalog entry with a different id has the same name
case-insensitively; in the sample catalog "Passport" and "passport" (ids 1
and 2) are both flagged while "Visa" is not; and saving a service always
issues the POST/PUT — no duplicate check rejects it. -/
theorem duplicate_service_warning_iff :
    (∀ (db : List Service) (s : Service),
        hasDuplicateWarning db s = true ↔
          ∃ o ∈ db, toLowerCase o.name = toLowerCase s.name ∧ o.id ≠ s.id) ∧
    hasDuplicateWarning sampleDb (mkService 1 "Passport") = true ∧
    hasDuplicateWarning sampleDb (mkService 2 "passport") = true ∧
    hasDuplicateWarning sampleDb (mkService 3 "Visa") = false ∧
    (∀ d : ServiceData, saveServiceRequest none d = ApiRequest.postService d) ∧
    (∀ (i : Nat) (d : ServiceData),
        saveServiceRequest (some i) d = ApiRequest.putService i d) := by
  refine ⟨?_, by decide, by decide, by decide, fun _ => rfl, fun _ _ => rfl⟩
  intro db s
  simp only [hasDuplicateWarning, serviceDuplicates, gt_iff_lt, decide_eq_true_eq,
    List.length_pos_iff_exists_mem, List.mem_filter, Bool.and_eq_true, beq_iff_eq,
    bne_iff_ne]

/-- C10: a refetch replaces the cache wholesale with the mapped backend
list, independent of the previous cache; the mapping always sets
takenOverBy to null and normalises a missing shared_with to an empty array
while taking edited and edit_reason from the backend; hence any take-over
state (and the edited flag and editReason it set) is discarded by the next
`fetchTasksAndRender`. -/
theorem refetch_discards_takeover :
    (∀ (data : List BackendTask) (old : List Task),
        fetchTasksAndRender data old = data.map mapBackendTaskToUI) ∧
    (∀ (data : List BackendTask) (old : List Task),
        (fetchTasksAndRender data old).all (fun t => t.takenOverBy == none) = true) ∧
    (∀ bt : BackendTask,
        (mapBackendTaskToUI bt).takenOverBy = none ∧
        (mapBackendTaskToUI bt).sharedWith = bt.shared_with.getD [] ∧
        (mapBackendTaskToUI bt).edited = bt.edited ∧
        (mapBackendTaskToUI bt).editReason = bt.edit_reason) ∧
    (∀ (data : List BackendTask) (tid : Nat) (u : String) (tasks : List Task),
        fetchTasksAndRender data ((takeOverTask tid u tasks).tasks) =
          fetchTasksAndRender data tasks) := by
  refine ⟨fun _ _ => rfl, ?_, fun bt => ⟨rfl, rfl, rfl, rfl⟩, fun _ _ _ _ => rfl⟩
  intro data old
  rw [List.all_eq_true]
  intro t ht
  rw [fetchTasksAndRender, List.mem_map] at ht
  obtain ⟨bt, _, rfl⟩ := ht
  rfl

end FYF
